import Mathlib

/-!
# WncController (K64F / mbed glue for the WNC14A2A modem)

A shallow embedding of `WncController.cpp`:

* `initWncModem`          the power-up sequence on the six GPIO lines and the modem UART;
* `enterWncTerminalMode`  the console <-> modem pass-through loop;
* the timer accessors     `startTimerA`, `stopTimerA`, `getTimerTicksA_mS`, ... .

The hardware is a `World`: the levels of the six lines, what the console and the modem
UART will deliver at each `readable()` poll, and the chronological record of every
externally visible operation the controller performed (`World.trace`).
Collaborators that are not defined in `WncController.cpp` (`sendWncCmd`,
`waitForPowerOnModemToRespond`, `dbgPuts`) are recorded as one trace entry each and their
result is an explicit argument of the model, so every theorem quantifies over all of their
outcomes.
-/

namespace WncController_fk

/-! ## Data model -/

/-- The six lines of `struct WncGpioPinListK64F`. -/
inductive Pin where
  | mdm_uart2_rx_boot_mode_sel
  | mdm_power_on
  | mdm_wakeup_in
  | mdm_reset
  | shield_3v3_1v8_sig_trans_ena
  | mdm_uart1_cts
  deriving DecidableEq, Repr

/-- Levels currently driven on the lines of `m_gpioPinList` (the value last assigned
through `*m_gpioPinList.<line> = v`). -/
structure WncGpioPinListK64F where
  mdm_uart2_rx_boot_mode_sel : Nat
  mdm_power_on : Nat
  mdm_wakeup_in : Nat
  mdm_reset : Nat
  shield_3v3_1v8_sig_trans_ena : Nat
  mdm_uart1_cts : Nat
  deriving DecidableEq, Repr

/-- Modelled from the spec: the outcome codes of `sendWncCmd` (`AtCmdErr_e`), declared in
`WncController.h`, which is not among the sources. The spec gives the set as
"OK, TIMEOUT, and other command-specific outcomes"; `WncController.cpp` itself names
`WNC_AT_CMD_OK` and `WNC_AT_CMD_TIMEOUT`. -/
inductive AtCmdErr_e where
  | WNC_AT_CMD_OK
  | WNC_AT_CMD_TIMEOUT
  | other (code : Nat)
  deriving DecidableEq, Repr

/-- One externally visible operation of the controller, as a recording test double of the
pins, the two UARTs, the delay primitive and the command collaborator would log it. -/
inductive Effect where
  /-- The assignment `*m_gpioPinList.<pin> = v`. -/
  | pinWrite (pin : Pin) (v : Nat)
  /-- The call `waitMs(t)`. -/
  | waitMs (t : Nat)
  /-- The call `m_pWncUart->baud(b)`. -/
  | wncBaud (b : Nat)
  /-- The call `waitForPowerOnModemToRespond(t)`. -/
  | waitForPowerOnModemToRespond (t : Nat)
  /-- The call `dbgPuts(s)`. -/
  | dbgPuts (s : String)
  /-- The call `sendWncCmd(cmd, &resp, timeout)`. -/
  | sendWncCmd (cmd : String) (timeout : Nat)
  /-- The call `pUart->puts(s)` on the console. -/
  | conPuts (s : String)
  /-- The call `pUart->getc()` on the console, which returned `c`. -/
  | conGetc (c : Nat)
  /-- The call `pUart->putc(c)` on the console. -/
  | conPutc (c : Nat)
  /-- The call `m_pWncUart->putc(c)` on the modem UART. -/
  | wncPutc (c : Nat)
  /-- The call `m_pWncUart->getc()` on the modem UART, which returned `c`. -/
  | wncGetc (c : Nat)
  deriving DecidableEq, Repr

/-- Hardware seen by the controller. `conIn` and `wncIn` are poll schedules: the head is
what the next `readable()` poll of that UART finds, `none` for "nothing to read" and
`some c` for "readable, and `getc()` returns `c`"; an exhausted schedule stays silent. -/
structure World where
  pins : WncGpioPinListK64F
  conIn : List (Option Nat)
  wncIn : List (Option Nat)
  trace : List Effect
  deriving DecidableEq, Repr

/-- The `WncIO * pUart` argument of `enterWncTerminalMode`: `NULL`, or a pointer to the
console UART (whose input is `World.conIn`). -/
inductive UartPtr where
  | NULL
  | console
  deriving DecidableEq, Repr

/-! ## Primitive operations -/

/-- Append one operation to the record. -/
def World.log (w : World) (e : Effect) : World :=
  { w with trace := w.trace ++ [e] }

/-- Drive one line to `v`, leaving the other five as they are. -/
def WncGpioPinListK64F.set (g : WncGpioPinListK64F) (p : Pin) (v : Nat) :
    WncGpioPinListK64F :=
  match p with
  | .mdm_uart2_rx_boot_mode_sel => { g with mdm_uart2_rx_boot_mode_sel := v }
  | .mdm_power_on => { g with mdm_power_on := v }
  | .mdm_wakeup_in => { g with mdm_wakeup_in := v }
  | .mdm_reset => { g with mdm_reset := v }
  | .shield_3v3_1v8_sig_trans_ena => { g with shield_3v3_1v8_sig_trans_ena := v }
  | .mdm_uart1_cts => { g with mdm_uart1_cts := v }

/-- The assignment `*m_gpioPinList.<p> = v`. -/
def writePin (p : Pin) (v : Nat) (w : World) : World :=
  { w with pins := w.pins.set p v, trace := w.trace ++ [Effect.pinWrite p v] }

/-- `WncController::waitMs(t)`: `wait_ms(t)`. -/
def waitMs (t : Nat) (w : World) : World :=
  w.log (Effect.waitMs t)

/-- The call `m_pWncUart->baud(b)`. -/
def wncBaud (b : Nat) (w : World) : World :=
  w.log (Effect.wncBaud b)

/-- Modelled from the spec: `dbgPuts`, a member of the controller that is not defined in
`WncController.cpp`. It writes a string to the debug transport if one is configured and
touches neither the six lines nor the modem or console UART; the call is recorded. -/
def dbgPuts (s : String) (w : World) : World :=
  w.log (Effect.dbgPuts s)

/-- Modelled from the spec: `waitForPowerOnModemToRespond`, the responsiveness check, a
member of the controller that is not defined in `WncController.cpp`. It polls the modem
with "AT" through the command collaborator until a non-timeout outcome is seen or the
caller-supplied time has elapsed, and reports success or failure. `res` is that report;
the call is recorded with the timeout it was given. It does not drive any of the six
lines. -/
def waitForPowerOnModemToRespond (res : Bool) (powerUpTimeoutSecs : Nat) (w : World) :
    Bool × World :=
  (res, w.log (Effect.waitForPowerOnModemToRespond powerUpTimeoutSecs))

/-- Modelled from the spec: `sendWncCmd`, the AT command exchange, a member of the
controller that is not defined in `WncController.cpp`. It takes a command and a timeout in
milliseconds and returns an outcome code. `r` is that outcome; the call is recorded with
its command text and timeout. -/
def sendWncCmd (r : AtCmdErr_e) (cmd : String) (timeout : Nat) (w : World) :
    AtCmdErr_e × World :=
  (r, w.log (Effect.sendWncCmd cmd timeout))

/-! ## `initWncModem` -/

/-- `WncController::initWncModem(uint8_t powerUpTimeoutSecs)`. `res` is what the
responsiveness check will report. The timeout is only handed on to the check, so its
8-bit range plays no role and it is a `Nat` here. -/
def initWncModem (res : Bool) (powerUpTimeoutSecs : Nat) (w : World) : Bool × World :=
  -- Hard reset the modem
  let w := writePin Pin.mdm_reset 0 w
  -- disable signal level translator
  let w := writePin Pin.shield_3v3_1v8_sig_trans_ena 0 w
  -- inputs in the same state as the WNC module pins
  let w := writePin Pin.mdm_uart2_rx_boot_mode_sel 1 w
  let w := writePin Pin.mdm_power_on 0 w
  let w := writePin Pin.mdm_wakeup_in 1 w
  let w := writePin Pin.mdm_uart1_cts 0 w
  -- wait for the WNC module to perform its initial boot
  let w := waitMs 1000 w
  -- 115200 8N1
  let w := wncBaud 115200 w
  -- enable the level translator
  let w := writePin Pin.shield_3v3_1v8_sig_trans_ena 1 w
  let (res, w) := waitForPowerOnModemToRespond res powerUpTimeoutSecs w
  -- Toggle wakeup
  if res = true then
    let w := dbgPuts "\r\nToggling Wakeup..." w
    let w := waitMs 20 w
    let w := writePin Pin.mdm_wakeup_in 0 w
    let w := waitMs 2000 w
    let w := writePin Pin.mdm_wakeup_in 1 w
    let w := waitMs 20 w
    let w := dbgPuts "Toggling complete." w
    (res, w)
  else
    (res, w)

/-- What a call performed: the part of the record of `w'` that was appended to that of
`w`. -/
def emitted (w w' : World) : List Effect :=
  w'.trace.drop w.trace.length

/-! ## `enterWncTerminalMode` -/

/-- The call `pUart->puts(s)` on the console. -/
def conPuts (s : String) (w : World) : World :=
  w.log (Effect.conPuts s)

/-- The call `pUart->putc(c)` on the console. -/
def conPutc (c : Nat) (w : World) : World :=
  w.log (Effect.conPutc c)

/-- The call `m_pWncUart->putc(c)` on the modem UART. -/
def wncPutc (c : Nat) (w : World) : World :=
  w.log (Effect.wncPutc c)

/-- The test `pUart->readable()` followed, when it holds, by `pUart->getc()`: consumes the
next entry of the console poll schedule and records the byte that was read, if any. -/
def conRead (w : World) : Option Nat × World :=
  match w.conIn with
  | [] => (none, w)
  | none :: rest => (none, { w with conIn := rest })
  | some c :: rest => (some c, { w with conIn := rest, trace := w.trace ++ [Effect.conGetc c] })

/-- The test `m_pWncUart->readable()` followed, when it holds, by `m_pWncUart->getc()`:
consumes the next entry of the modem poll schedule and records the byte that was read, if
any. -/
def wncRead (w : World) : Option Nat × World :=
  match w.wncIn with
  | [] => (none, w)
  | none :: rest => (none, { w with wncIn := rest })
  | some c :: rest => (some c, { w with wncIn := rest, trace := w.trace ++ [Effect.wncGetc c] })

/-- The second statement of the loop body:
`if (m_pWncUart->readable()) pUart->putc(m_pWncUart->getc());`. -/
def modemToConsole (w : World) : World :=
  match wncRead w with
  | (some m, w) => conPutc m w
  | (none, w) => w

/-- One pass through the body of `while (1)`. The result is `some b` when the body executed
`return (b)` and `none` when it fell through to the next pass. `flush` and `final` are the
outcomes of the two `sendWncCmd` calls of the exit branch. -/
def terminalIteration (echoOn : Bool) (flush final : AtCmdErr_e) (w : World) :
    Option Bool × World :=
  match conRead w with
  | (some c, w) =>
    if c = 0x11 then
      let w := conPuts "\r\nExiting WNC Terminal Mode!\r\n" w
      -- Cleanup in case user doesn't finish command
      let (_, w) := sendWncCmd flush "AT" 300 w
      let (r, w) := sendWncCmd final "AT" 500 w
      (some (decide (r = AtCmdErr_e.WNC_AT_CMD_OK)), w)
    else
      let w := if echoOn = true then conPutc c w else w
      let w := wncPutc c w
      (none, modemToConsole w)
  | (none, w) => (none, modemToConsole w)

/-- The loop `while (1) { ... }`, run for at most `fuel` passes: `some b` when it returned
`b` within that many passes, `none` when it is still running after them. -/
def terminalLoop (echoOn : Bool) (flush final : AtCmdErr_e) : Nat → World → Option Bool × World
  | 0, w => (none, w)
  | fuel + 1, w =>
    match terminalIteration echoOn flush final w with
    | (some b, w) => (some b, w)
    | (none, w) => terminalLoop echoOn flush final fuel w

/-- `WncController::enterWncTerminalMode(WncIO * pUart, bool echoOn)`, with the loop run
for at most `fuel` passes. `probe`, `flush` and `final` are the outcomes of the three
`sendWncCmd` calls in program order. The result is `some b` when the function returned `b`
and `none` when it is still in the loop after `fuel` passes. -/
def enterWncTerminalMode (probe flush final : AtCmdErr_e) (fuel : Nat) (pUart : UartPtr)
    (echoOn : Bool) (w : World) : Option Bool × World :=
  if pUart = UartPtr.NULL then
    (some false, w) -- Need a uart!
  else
    let (r, w) := sendWncCmd probe "AT" 500 w
    if r = AtCmdErr_e.WNC_AT_CMD_TIMEOUT then
      (some false, w)
    else
      let w := conPuts "\r\nEntering WNC Terminal Mode - press <CTRL>-Q to exit!\r\n" w
      terminalLoop echoOn flush final fuel w

/-! ## Reading the record -/

/-- Bytes written to the modem UART (`m_pWncUart->putc`), in order. -/
def wncWrites : List Effect → List Nat
  | [] => []
  | Effect.wncPutc c :: t => c :: wncWrites t
  | _ :: t => wncWrites t

/-- Bytes read from the modem UART (`m_pWncUart->getc`), in order. -/
def wncReads : List Effect → List Nat
  | [] => []
  | Effect.wncGetc c :: t => c :: wncReads t
  | _ :: t => wncReads t

/-- Bytes read from the console (`pUart->getc`), in order. -/
def conReads : List Effect → List Nat
  | [] => []
  | Effect.conGetc c :: t => c :: conReads t
  | _ :: t => conReads t

/-- Bytes written to the console with `pUart->putc`, in order (banners are written with
`pUart->puts` and are not part of it). -/
def conWrites : List Effect → List Nat
  | [] => []
  | Effect.conPutc c :: t => c :: conWrites t
  | _ :: t => conWrites t

/-- Echoes in a record: the bytes of those `pUart->putc` that come directly after the
`pUart->getc` of the console byte they repeat. `afterGetc` tells whether the entry just
before the list was a console read. -/
def echoWritesFrom : Bool → List Effect → List Nat
  | _, [] => []
  | afterGetc, Effect.conPutc c :: t =>
    if afterGetc = true then c :: echoWritesFrom false t else echoWritesFrom false t
  | _, Effect.conGetc _ :: t => echoWritesFrom true t
  | _, _ :: t => echoWritesFrom false t

/-- Echoed console bytes of a record, in order. -/
def echoWrites (t : List Effect) : List Nat :=
  echoWritesFrom false t

/-- Console byte output with the echoes removed: the bytes of those `pUart->putc` that do
not come directly after a console read. -/
def passedWritesFrom : Bool → List Effect → List Nat
  | _, [] => []
  | afterGetc, Effect.conPutc c :: t =>
    if afterGetc = true then passedWritesFrom false t else c :: passedWritesFrom false t
  | _, Effect.conGetc _ :: t => passedWritesFrom true t
  | _, _ :: t => passedWritesFrom false t

/-- Console byte output of a record with the banners and the echoes removed, in order. -/
def passedWrites (t : List Effect) : List Nat :=
  passedWritesFrom false t

/-- The `sendWncCmd` calls of a record, in order, each with its command and timeout. -/
def cmdCalls : List Effect → List (String × Nat)
  | [] => []
  | Effect.sendWncCmd cmd timeout :: t => (cmd, timeout) :: cmdCalls t
  | _ :: t => cmdCalls t

/-- Bytes a poll schedule delivers, in order. -/
def delivered (sched : List (Option Nat)) : List Nat :=
  sched.filterMap id

/-! ## Timers -/

/-- The mbed `Timer` class of the three counters is a library type that is not part of the
sources, so its operations are parameters of the model. `T` is the state of one counter and
every operation receives the reading of the hardware clock at the time of the call. -/
structure TimerApi (T : Type) where
  start : Nat → T → T
  stop : Nat → T → T
  reset : Nat → T → T
  read_ms : Nat → T → Int
  read_us : Nat → T → Int

/-- The three counters of the controller: `m_logTimer`, `m_timerA`, `m_timerB`. -/
structure Timers (T : Type) where
  m_logTimer : T
  m_timerA : T
  m_timerB : T

/-- The constructor `WncController::WncController`, on the counters: `m_logTimer.start()`. -/
def construct {T : Type} (api : TimerApi T) (now : Nat) (c : Timers T) : Timers T :=
  { c with m_logTimer := api.start now c.m_logTimer }

/-- `WncController::getLogTimerTicks`: `m_logTimer.read_us()`. -/
def getLogTimerTicks {T : Type} (api : TimerApi T) (now : Nat) (c : Timers T) :
    Int × Timers T :=
  (api.read_us now c.m_logTimer, c)

/-- `WncController::startTimerA`: `m_timerA.start(); m_timerA.reset();`. -/
def startTimerA {T : Type} (api : TimerApi T) (now : Nat) (c : Timers T) : Timers T :=
  { c with m_timerA := api.reset now (api.start now c.m_timerA) }

/-- `WncController::stopTimerA`: `m_timerA.stop();`. -/
def stopTimerA {T : Type} (api : TimerApi T) (now : Nat) (c : Timers T) : Timers T :=
  { c with m_timerA := api.stop now c.m_timerA }

/-- `WncController::getTimerTicksA_mS`: `m_timerA.read_ms()`. -/
def getTimerTicksA_mS {T : Type} (api : TimerApi T) (now : Nat) (c : Timers T) :
    Int × Timers T :=
  (api.read_ms now c.m_timerA, c)

/-- `WncController::startTimerB`: `m_timerB.start(); m_timerB.reset();`. -/
def startTimerB {T : Type} (api : TimerApi T) (now : Nat) (c : Timers T) : Timers T :=
  { c with m_timerB := api.reset now (api.start now c.m_timerB) }

/-- `WncController::stopTimerB`: `m_timerB.stop();`. -/
def stopTimerB {T : Type} (api : TimerApi T) (now : Nat) (c : Timers T) : Timers T :=
  { c with m_timerB := api.stop now c.m_timerB }

/-- `WncController::getTimerTicksB_mS`: `m_timerB.read_ms()`. -/
def getTimerTicksB_mS {T : Type} (api : TimerApi T) (now : Nat) (c : Timers T) :
    Int × Timers T :=
  (api.read_ms now c.m_timerB, c)

/-- The seven timer members of the controller. -/
inductive TimerCall where
  | getLogTimerTicks
  | startTimerA
  | stopTimerA
  | getTimerTicksA_mS
  | startTimerB
  | stopTimerB
  | getTimerTicksB_mS
  deriving DecidableEq, Repr

/-- State of the counters after one call made at clock reading `now`. -/
def TimerCall.run {T : Type} (api : TimerApi T) (now : Nat) (c : Timers T) :
    TimerCall → Timers T
  | .getLogTimerTicks => (WncController_fk.getLogTimerTicks api now c).2
  | .startTimerA => WncController_fk.startTimerA api now c
  | .stopTimerA => WncController_fk.stopTimerA api now c
  | .getTimerTicksA_mS => (WncController_fk.getTimerTicksA_mS api now c).2
  | .startTimerB => WncController_fk.startTimerB api now c
  | .stopTimerB => WncController_fk.stopTimerB api now c
  | .getTimerTicksB_mS => (WncController_fk.getTimerTicksB_mS api now c).2

/-- State of the counters after a sequence of calls, each at its own clock reading. -/
def runCalls {T : Type} (api : TimerApi T) (c : Timers T) : List (Nat × TimerCall) → Timers T
  | [] => c
  | (now, call) :: rest => runCalls api (call.run api now c) rest

/-! ## The record of the loop, pass by pass -/

/-- Operations of the console half of a pass in which the console poll found `c` and `c`
is not the exit byte: nothing when there was no byte; otherwise the read, the echo when
`echoOn`, and the forward to the modem. -/
def conEvents (echoOn : Bool) : Option Nat → List Effect
  | none => []
  | some c =>
    Effect.conGetc c :: ((if echoOn = true then [Effect.conPutc c] else []) ++ [Effect.wncPutc c])

/-- Operations of the modem half of a pass in which the modem poll found `m`: nothing when
there was no byte; otherwise the read and the write to the console. -/
def wncEvents : Option Nat → List Effect
  | none => []
  | some m => [Effect.wncGetc m, Effect.conPutc m]

/-- Operations of the pass that reads the exit byte. -/
def exitEvents : List Effect :=
  [Effect.conGetc 0x11,
   Effect.conPuts "\r\nExiting WNC Terminal Mode!\r\n",
   Effect.sendWncCmd "AT" 300,
   Effect.sendWncCmd "AT" 500]

/-- Operations of the first `fuel` passes of the loop on console schedule `cs` and modem
schedule `ms`, the exit pass being the last one if it is reached. -/
def loopEvents (echoOn : Bool) : Nat → List (Option Nat) → List (Option Nat) → List Effect
  | 0, _, _ => []
  | fuel + 1, cs, ms =>
    if cs.head? = some (some 0x11) then exitEvents
    else conEvents echoOn cs.head?.join ++ wncEvents ms.head?.join
      ++ loopEvents echoOn fuel cs.tail ms.tail

/-- Console schedule up to, and without, the first exit byte. -/
def beforeExit (cs : List (Option Nat)) : List (Option Nat) :=
  cs.takeWhile (fun x => decide (x ≠ some 0x11))

/-- What the first `fuel` passes of the loop performed, started in world `w`. -/
def loopOps (echoOn : Bool) (flush final : AtCmdErr_e) (fuel : Nat) (w : World) : List Effect :=
  emitted w (terminalLoop echoOn flush final fuel w).2

/-- What one pass through the loop body performed, started in world `w`. -/
def passOps (echoOn : Bool) (flush final : AtCmdErr_e) (w : World) : List Effect :=
  emitted w (terminalIteration echoOn flush final w).2

/-- Number of passes, among the first `fuel`, that ran to the end of the loop body: all of
them, or those before the pass that reads the exit byte. -/
def fullPasses : Nat → List (Option Nat) → Nat
  | 0, _ => 0
  | fuel + 1, [] => fuel + 1
  | fuel + 1, x :: cs => if x = some 0x11 then 0 else fullPasses fuel cs + 1

/-! ## Auxiliary facts -/

theorem emitted_of_trace_eq {w w' : World} {l : List Effect}
    (h : w'.trace = w.trace ++ l) : emitted w w' = l := by
  simp [emitted, h]

/-- Record of `initWncModem`: the nine set-up operations, the responsiveness check, and the
wake-up toggle if and only if the check succeeded. -/
theorem initWncModem_trace (res : Bool) (t : Nat) (w : World) :
    (initWncModem res t w).2.trace = w.trace ++
      ([Effect.pinWrite Pin.mdm_reset 0,
        Effect.pinWrite Pin.shield_3v3_1v8_sig_trans_ena 0,
        Effect.pinWrite Pin.mdm_uart2_rx_boot_mode_sel 1,
        Effect.pinWrite Pin.mdm_power_on 0,
        Effect.pinWrite Pin.mdm_wakeup_in 1,
        Effect.pinWrite Pin.mdm_uart1_cts 0,
        Effect.waitMs 1000,
        Effect.wncBaud 115200,
        Effect.pinWrite Pin.shield_3v3_1v8_sig_trans_ena 1,
        Effect.waitForPowerOnModemToRespond t] ++
       (if res = true then
          [Effect.dbgPuts "\r\nToggling Wakeup...",
           Effect.waitMs 20,
           Effect.pinWrite Pin.mdm_wakeup_in 0,
           Effect.waitMs 2000,
           Effect.pinWrite Pin.mdm_wakeup_in 1,
           Effect.waitMs 20,
           Effect.dbgPuts "Toggling complete."]
        else [])) := by
  cases res <;>
    simp [initWncModem, writePin, waitMs, wncBaud, dbgPuts, waitForPowerOnModemToRespond,
      World.log]

theorem terminalIteration_eq (echoOn : Bool) (flush final : AtCmdErr_e) (w : World) :
    terminalIteration echoOn flush final w =
      if w.conIn.head? = some (some 0x11) then
        (some (decide (final = AtCmdErr_e.WNC_AT_CMD_OK)),
          { w with conIn := w.conIn.tail, trace := w.trace ++ exitEvents })
      else
        (none, { w with conIn := w.conIn.tail, wncIn := w.wncIn.tail,
                        trace := w.trace ++ (conEvents echoOn w.conIn.head?.join
                          ++ wncEvents w.wncIn.head?.join) }) := by
  obtain ⟨pins, conIn, wncIn, trace⟩ := w
  rcases conIn with _ | ⟨_ | c, cs⟩
  · rcases wncIn with _ | ⟨_ | m, ms⟩ <;>
      simp [terminalIteration, conRead, wncRead, modemToConsole, conPutc, World.log,
        conEvents, wncEvents]
  · rcases wncIn with _ | ⟨_ | m, ms⟩ <;>
      simp [terminalIteration, conRead, wncRead, modemToConsole, conPutc, World.log,
        conEvents, wncEvents]
  · by_cases hc : c = 17
    · subst hc
      simp [terminalIteration, conRead, conPuts, sendWncCmd, World.log, exitEvents]
    · rcases wncIn with _ | ⟨_ | m, ms⟩ <;> cases echoOn <;>
        simp [terminalIteration, conRead, wncRead, modemToConsole, conPutc, wncPutc,
          World.log, conEvents, wncEvents, hc]

theorem terminalLoop_trace (echoOn : Bool) (flush final : AtCmdErr_e) (n : Nat) (w : World) :
    (terminalLoop echoOn flush final n w).2.trace
      = w.trace ++ loopEvents echoOn n w.conIn w.wncIn := by
  induction n generalizing w with
  | zero => simp [terminalLoop, loopEvents]
  | succ n ih =>
    rw [terminalLoop, terminalIteration_eq, loopEvents]
    by_cases h : w.conIn.head? = some (some 0x11)
    · simp [h]
    · simp only [h, if_false]
      rw [ih]
      simp [List.append_assoc]

theorem terminalLoop_result (echoOn : Bool) (flush final : AtCmdErr_e) (n : Nat) (w : World) :
    (terminalLoop echoOn flush final n w).1
      = if some 0x11 ∈ w.conIn.take n then some (decide (final = AtCmdErr_e.WNC_AT_CMD_OK))
        else none := by
  induction n generalizing w with
  | zero => simp [terminalLoop]
  | succ n ih =>
    rw [terminalLoop, terminalIteration_eq]
    obtain ⟨pins, conIn, wncIn, trace⟩ := w
    rcases conIn with _ | ⟨x, cs⟩
    · simp [ih]
    · by_cases h : x = some 0x11
      · simp [h]
      · have h' : ¬ (some (17 : Nat) = x) := fun e => h e.symm
        simp [h, h', ih]

theorem wncWrites_append (a b : List Effect) : wncWrites (a ++ b) = wncWrites a ++ wncWrites b := by
  induction a with
  | nil => rfl
  | cons x t ih => cases x <;> simp [wncWrites, ih]

theorem wncReads_append (a b : List Effect) : wncReads (a ++ b) = wncReads a ++ wncReads b := by
  induction a with
  | nil => rfl
  | cons x t ih => cases x <;> simp [wncReads, ih]

theorem conReads_append (a b : List Effect) : conReads (a ++ b) = conReads a ++ conReads b := by
  induction a with
  | nil => rfl
  | cons x t ih => cases x <;> simp [conReads, ih]

theorem conWrites_append (a b : List Effect) : conWrites (a ++ b) = conWrites a ++ conWrites b := by
  induction a with
  | nil => rfl
  | cons x t ih => cases x <;> simp [conWrites, ih]

theorem cmdCalls_append (a b : List Effect) : cmdCalls (a ++ b) = cmdCalls a ++ cmdCalls b := by
  induction a with
  | nil => rfl
  | cons x t ih => cases x <;> simp [cmdCalls, ih]

theorem echoWritesFrom_conEvents (echoOn : Bool) (c : Option Nat) (rest : List Effect) :
    echoWritesFrom false (conEvents echoOn c ++ rest)
      = (if echoOn = true then c.toList else []) ++ echoWritesFrom false rest := by
  cases c <;> cases echoOn <;> simp [conEvents, echoWritesFrom]

theorem echoWritesFrom_wncEvents (m : Option Nat) (rest : List Effect) :
    echoWritesFrom false (wncEvents m ++ rest) = echoWritesFrom false rest := by
  cases m <;> simp [wncEvents, echoWritesFrom]

theorem passedWritesFrom_conEvents (echoOn : Bool) (c : Option Nat) (rest : List Effect) :
    passedWritesFrom false (conEvents echoOn c ++ rest) = passedWritesFrom false rest := by
  cases c <;> cases echoOn <;> simp [conEvents, passedWritesFrom]

theorem passedWritesFrom_wncEvents (m : Option Nat) (rest : List Effect) :
    passedWritesFrom false (wncEvents m ++ rest) = m.toList ++ passedWritesFrom false rest := by
  cases m <;> simp [wncEvents, passedWritesFrom]

theorem delivered_cons (x : Option Nat) (l : List (Option Nat)) :
    delivered (x :: l) = x.toList ++ delivered l := by
  cases x <;> simp [delivered]

/-- Shape of the record of a pass that does not read the exit byte, and of one that does. -/
theorem loopEvents_cons (echoOn : Bool) (n : Nat) (x : Option Nat) (cs ms : List (Option Nat)) :
    loopEvents echoOn (n + 1) (x :: cs) ms =
      if x = some 0x11 then exitEvents
      else conEvents echoOn x ++ wncEvents ms.head?.join ++ loopEvents echoOn n cs ms.tail := by
  simp [loopEvents]

theorem loopEvents_nil (echoOn : Bool) (n : Nat) (ms : List (Option Nat)) :
    loopEvents echoOn (n + 1) [] ms = wncEvents ms.head?.join ++ loopEvents echoOn n [] ms.tail := by
  simp [loopEvents, conEvents]

theorem conReads_loopEvents (echoOn : Bool) (n : Nat) (cs ms : List (Option Nat)) :
    conReads (loopEvents echoOn n cs ms)
      = delivered (beforeExit (cs.take n)) ++ (if some 0x11 ∈ cs.take n then [0x11] else []) := by
  induction n generalizing cs ms with
  | zero => simp [loopEvents, conReads, delivered, beforeExit]
  | succ n ih =>
    rcases cs with _ | ⟨x, cs⟩
    · rw [loopEvents_nil, conReads_append, ih]
      cases h : ms.head?.join <;> simp [wncEvents, conReads, delivered, beforeExit]
    · rw [loopEvents_cons]
      by_cases hx : x = some 0x11
      · subst hx
        simp [exitEvents, conReads, delivered, beforeExit]
      · have hx' : ¬ (some (17 : Nat) = x) := fun e => hx e.symm
        have e1 : conReads (wncEvents ms.head?.join) = [] := by
          cases ms.head?.join <;> simp [wncEvents, conReads]
        have e2 : conReads (conEvents echoOn x) = x.toList := by
          cases x <;> cases echoOn <;> simp [conEvents, conReads]
        rw [if_neg hx, conReads_append, conReads_append, ih, e1, e2]
        simp [beforeExit, hx, hx', delivered_cons]

theorem wncWrites_loopEvents (echoOn : Bool) (n : Nat) (cs ms : List (Option Nat)) :
    wncWrites (loopEvents echoOn n cs ms) = delivered (beforeExit (cs.take n)) := by
  induction n generalizing cs ms with
  | zero => simp [loopEvents, wncWrites, delivered, beforeExit]
  | succ n ih =>
    rcases cs with _ | ⟨x, cs⟩
    · rw [loopEvents_nil, wncWrites_append, ih]
      cases h : ms.head?.join <;> simp [wncEvents, wncWrites, delivered, beforeExit]
    · rw [loopEvents_cons]
      by_cases hx : x = some 0x11
      · subst hx
        simp [exitEvents, wncWrites, delivered, beforeExit]
      · have e1 : wncWrites (wncEvents ms.head?.join) = [] := by
          cases ms.head?.join <;> simp [wncEvents, wncWrites]
        have e2 : wncWrites (conEvents echoOn x) = x.toList := by
          cases x <;> cases echoOn <;> simp [conEvents, wncWrites]
        rw [if_neg hx, wncWrites_append, wncWrites_append, ih, e1, e2]
        simp [beforeExit, hx, delivered_cons]

theorem echoWrites_loopEvents (echoOn : Bool) (n : Nat) (cs ms : List (Option Nat)) :
    echoWrites (loopEvents echoOn n cs ms)
      = if echoOn = true then delivered (beforeExit (cs.take n)) else [] := by
  unfold echoWrites
  induction n generalizing cs ms with
  | zero => simp [loopEvents, echoWritesFrom, delivered, beforeExit]
  | succ n ih =>
    rcases cs with _ | ⟨x, cs⟩
    · rw [loopEvents_nil, echoWritesFrom_wncEvents, ih]
      simp
    · rw [loopEvents_cons]
      by_cases hx : x = some 0x11
      · subst hx
        simp [exitEvents, echoWritesFrom, delivered, beforeExit]
      · rw [if_neg hx, List.append_assoc, echoWritesFrom_conEvents, echoWritesFrom_wncEvents, ih]
        cases echoOn <;> simp [beforeExit, hx, delivered_cons]

theorem passedWrites_loopEvents (echoOn : Bool) (n : Nat) (cs ms : List (Option Nat)) :
    passedWrites (loopEvents echoOn n cs ms) = wncReads (loopEvents echoOn n cs ms) := by
  unfold passedWrites
  induction n generalizing cs ms with
  | zero => simp [loopEvents, passedWritesFrom, wncReads]
  | succ n ih =>
    have e1 : ∀ m : Option Nat, wncReads (wncEvents m) = m.toList := by
      intro m; cases m <;> simp [wncEvents, wncReads]
    rcases cs with _ | ⟨x, cs⟩
    · rw [loopEvents_nil, passedWritesFrom_wncEvents, ih, wncReads_append, e1]
    · rw [loopEvents_cons]
      by_cases hx : x = some 0x11
      · subst hx
        simp [exitEvents, passedWritesFrom, wncReads]
      · have e2 : wncReads (conEvents echoOn x) = [] := by
          cases x <;> cases echoOn <;> simp [conEvents, wncReads]
        rw [if_neg hx, List.append_assoc, passedWritesFrom_conEvents,
          passedWritesFrom_wncEvents, ih, wncReads_append, wncReads_append, e1, e2]
        simp

theorem conWrites_length_loopEvents (echoOn : Bool) (n : Nat) (cs ms : List (Option Nat)) :
    (conWrites (loopEvents echoOn n cs ms)).length
      = (echoWrites (loopEvents echoOn n cs ms)).length
        + (wncReads (loopEvents echoOn n cs ms)).length := by
  unfold echoWrites
  induction n generalizing cs ms with
  | zero => simp [loopEvents, echoWritesFrom, wncReads, conWrites]
  | succ n ih =>
    have e1 : ∀ m : Option Nat, wncReads (wncEvents m) = m.toList := by
      intro m; cases m <;> simp [wncEvents, wncReads]
    have e3 : ∀ m : Option Nat, conWrites (wncEvents m) = m.toList := by
      intro m; cases m <;> simp [wncEvents, conWrites]
    rcases cs with _ | ⟨x, cs⟩
    · rw [loopEvents_nil, echoWritesFrom_wncEvents, conWrites_append, wncReads_append, e1, e3]
      simp only [List.length_append]
      rw [ih]
      omega
    · rw [loopEvents_cons]
      by_cases hx : x = some 0x11
      · subst hx
        simp [exitEvents, echoWritesFrom, wncReads, conWrites]
      · have e2 : wncReads (conEvents echoOn x) = [] := by
          cases x <;> cases echoOn <;> simp [conEvents, wncReads]
        have e4 : conWrites (conEvents echoOn x) = if echoOn = true then x.toList else [] := by
          cases x <;> cases echoOn <;> simp [conEvents, conWrites]
        rw [if_neg hx, List.append_assoc, echoWritesFrom_conEvents, echoWritesFrom_wncEvents,
          conWrites_append, conWrites_append, wncReads_append, wncReads_append, e1, e2, e3, e4]
        simp only [List.length_append, List.length_nil]
        rw [ih]
        omega

theorem fullPasses_le (n : Nat) (cs : List (Option Nat)) : fullPasses n cs ≤ n := by
  induction n generalizing cs with
  | zero => simp [fullPasses]
  | succ n ih =>
    rcases cs with _ | ⟨x, cs⟩
    · simp [fullPasses]
    · by_cases hx : x = some 0x11
      · simp [fullPasses, hx]
      · have := ih cs
        simp [fullPasses, hx, this]

theorem fullPasses_of_no_exit (n : Nat) (cs : List (Option Nat))
    (h : some 0x11 ∉ cs.take n) : fullPasses n cs = n := by
  induction n generalizing cs with
  | zero => simp [fullPasses]
  | succ n ih =>
    rcases cs with _ | ⟨x, cs⟩
    · simp [fullPasses]
    · simp only [List.take_succ_cons, List.mem_cons, not_or] at h
      have hx : ¬ x = some 0x11 := fun e => h.1 e.symm
      simp [fullPasses, hx, ih cs h.2]

theorem wncReads_loopEvents (echoOn : Bool) (n : Nat) (cs ms : List (Option Nat)) :
    wncReads (loopEvents echoOn n cs ms) = delivered (ms.take (fullPasses n cs)) := by
  induction n generalizing cs ms with
  | zero => simp [loopEvents, wncReads, delivered, fullPasses]
  | succ n ih =>
    have e1 : ∀ m : Option Nat, wncReads (wncEvents m) = m.toList := by
      intro m; cases m <;> simp [wncEvents, wncReads]
    have e5 : ∀ k : Nat, delivered (ms.take (k + 1))
        = ms.head?.join.toList ++ delivered (ms.tail.take k) := by
      intro k
      rcases ms with _ | ⟨m, ms⟩
      · simp [delivered]
      · cases m <;> simp [delivered]
    rcases cs with _ | ⟨x, cs⟩
    · rw [loopEvents_nil, wncReads_append, e1, ih]
      have hf : fullPasses (n + 1) [] = fullPasses n [] + 1 := by
        have h1 := fullPasses_of_no_exit n [] (by simp)
        simp [fullPasses, h1]
      rw [hf, e5]
    · rw [loopEvents_cons]
      by_cases hx : x = some 0x11
      · subst hx
        simp [exitEvents, wncReads, fullPasses, delivered]
      · have e2 : wncReads (conEvents echoOn x) = [] := by
          cases x <;> cases echoOn <;> simp [conEvents, wncReads]
        have hf : fullPasses (n + 1) (x :: cs) = fullPasses n cs + 1 := by
          simp [fullPasses, hx]
        rw [if_neg hx, wncReads_append, wncReads_append, e1, e2, ih, hf, e5]
        simp

theorem enterWncTerminalMode_eq_loop (probe flush final : AtCmdErr_e) (n : Nat)
    (pUart : UartPtr) (echoOn : Bool) (w : World) (hU : pUart ≠ UartPtr.NULL)
    (hP : probe ≠ AtCmdErr_e.WNC_AT_CMD_TIMEOUT) :
    enterWncTerminalMode probe flush final n pUart echoOn w =
      terminalLoop echoOn flush final n
        { w with trace := w.trace ++
            [Effect.sendWncCmd "AT" 500,
             Effect.conPuts "\r\nEntering WNC Terminal Mode - press <CTRL>-Q to exit!\r\n"] } := by
  simp [enterWncTerminalMode, hU, hP, sendWncCmd, conPuts, World.log]

theorem take_through_exit (pre post : List (Option Nat)) (k : Nat) :
    (pre ++ some 0x11 :: post).take (pre.length + 1 + k) = pre ++ some 0x11 :: post.take k := by
  rw [Nat.add_assoc, List.take_append, Nat.add_comm 1 k, List.take_succ_cons]

theorem beforeExit_through_exit (pre rest : List (Option Nat)) (h : some 0x11 ∉ pre) :
    beforeExit (pre ++ some 0x11 :: rest) = pre := by
  unfold beforeExit
  rw [List.takeWhile_append_of_pos]
  · simp
  · intro a ha
    have : a ≠ some 0x11 := fun e => h (e ▸ ha)
    simpa using this

theorem beforeExit_of_no_exit (l : List (Option Nat)) (h : some 0x11 ∉ l) :
    beforeExit l = l := by
  unfold beforeExit
  rw [List.takeWhile_eq_self_iff]
  intro a ha
  have : a ≠ some 0x11 := fun e => h (e ▸ ha)
  simpa using this

theorem loopEvents_through_exit (echoOn : Bool) (pre post ms : List (Option Nat)) (k : Nat)
    (h : some 0x11 ∉ pre) :
    loopEvents echoOn (pre.length + 1 + k) (pre ++ some 0x11 :: post) ms
      = loopEvents echoOn pre.length (pre ++ some 0x11 :: post) ms ++ exitEvents := by
  induction pre generalizing ms with
  | nil =>
    have e : ([] : List (Option Nat)).length + 1 + k = k + 1 := by simp; omega
    rw [e]
    simp [loopEvents]
  | cons x pre ih =>
    simp only [List.mem_cons, not_or] at h
    have hx : ¬ x = some 0x11 := fun e => h.1 e.symm
    have e : (x :: pre).length + 1 + k = (pre.length + 1 + k) + 1 := by simp; omega
    rw [e, List.cons_append, loopEvents_cons, if_neg hx, ih ms.tail h.2]
    rw [List.length_cons, loopEvents_cons, if_neg hx]
    simp [List.append_assoc]

theorem cmdCalls_loopEvents (echoOn : Bool) (n : Nat) (cs ms : List (Option Nat)) :
    cmdCalls (loopEvents echoOn n cs ms)
      = if some 0x11 ∈ cs.take n then [("AT", 300), ("AT", 500)] else [] := by
  induction n generalizing cs ms with
  | zero => simp [loopEvents, cmdCalls]
  | succ n ih =>
    have e1 : ∀ m : Option Nat, cmdCalls (wncEvents m) = [] := by
      intro m; cases m <;> simp [wncEvents, cmdCalls]
    rcases cs with _ | ⟨x, cs⟩
    · rw [loopEvents_nil, cmdCalls_append, e1, ih]
      simp
    · rw [loopEvents_cons]
      by_cases hx : x = some 0x11
      · subst hx
        simp [exitEvents, cmdCalls]
      · have hx' : ¬ (some (17 : Nat) = x) := fun e => hx e.symm
        have e2 : cmdCalls (conEvents echoOn x) = [] := by
          cases x <;> cases echoOn <;> simp [conEvents, cmdCalls]
        rw [if_neg hx, cmdCalls_append, cmdCalls_append, e1, e2, ih]
        simp [hx']

theorem delivered_eq_nil_of_silent (ms : List (Option Nat)) (h : ∀ x ∈ ms, x = none) :
    delivered ms = [] := by
  induction ms with
  | nil => rfl
  | cons x ms ih =>
    have hx : x = none := h x (List.mem_cons_self x ms)
    have ht : ∀ y ∈ ms, y = none := fun y hy => h y (List.mem_cons_of_mem x hy)
    rw [delivered_cons, hx, ih ht]
    rfl

theorem conWrites_loopEvents_of_silent (echoOn : Bool) (n : Nat) (cs ms : List (Option Nat))
    (h : ∀ x ∈ ms, x = none) :
    conWrites (loopEvents echoOn n cs ms)
      = if echoOn = true then delivered (beforeExit (cs.take n)) else [] := by
  induction n generalizing cs ms with
  | zero => simp [loopEvents, conWrites, delivered, beforeExit]
  | succ n ih =>
    have hm : ms.head?.join = none := by
      rcases ms with _ | ⟨m, ms⟩
      · rfl
      · have : m = none := h m (List.mem_cons_self m ms)
        subst this
        rfl
    have ht : ∀ y ∈ ms.tail, y = none := fun y hy => h y (List.mem_of_mem_tail hy)
    rcases cs with _ | ⟨x, cs⟩
    · rw [loopEvents_nil, conWrites_append, hm, ih [] ms.tail ht]
      simp [wncEvents, conWrites]
    · rw [loopEvents_cons]
      by_cases hx : x = some 0x11
      · subst hx
        simp [exitEvents, conWrites, delivered, beforeExit]
      · have e4 : conWrites (conEvents echoOn x) = if echoOn = true then x.toList else [] := by
          cases x <;> cases echoOn <;> simp [conEvents, conWrites]
        rw [if_neg hx, conWrites_append, conWrites_append, hm, e4, ih cs ms.tail ht]
        cases echoOn <;> simp [wncEvents, conWrites, beforeExit, hx, delivered_cons]

/-! ## The claims -/

/-- C1. Whatever the timeout and whatever the responsiveness check reports, the first ten
operations `initWncModem` performs are, in this order: reset := 0, level-translator enable
:= 0, UART boot-mode-select := 1, power-on := 0, wake-up := 1, CTS := 0, delay 1000 ms,
modem UART at 115200 baud, level-translator enable := 1, and then the responsiveness check
called with the caller's timeout; they are appended to what was recorded before. -/
theorem initWncModem_order_before_check (res : Bool) (powerUpTimeoutSecs : Nat) (w : World) :
    (initWncModem res powerUpTimeoutSecs w).2.trace
        = w.trace ++ emitted w (initWncModem res powerUpTimeoutSecs w).2 ∧
    (emitted w (initWncModem res powerUpTimeoutSecs w).2).take 10 =
      [Effect.pinWrite Pin.mdm_reset 0,
       Effect.pinWrite Pin.shield_3v3_1v8_sig_trans_ena 0,
       Effect.pinWrite Pin.mdm_uart2_rx_boot_mode_sel 1,
       Effect.pinWrite Pin.mdm_power_on 0,
       Effect.pinWrite Pin.mdm_wakeup_in 1,
       Effect.pinWrite Pin.mdm_uart1_cts 0,
       Effect.waitMs 1000,
       Effect.wncBaud 115200,
       Effect.pinWrite Pin.shield_3v3_1v8_sig_trans_ena 1,
       Effect.waitForPowerOnModemToRespond powerUpTimeoutSecs] ∧
    (∀ t, Effect.waitForPowerOnModemToRespond t ∉
      (emitted w (initWncModem res powerUpTimeoutSecs w).2).take 9) ∧
    (∀ t, Effect.waitForPowerOnModemToRespond t ∉
      (emitted w (initWncModem res powerUpTimeoutSecs w).2).drop 10) := by
  have h := initWncModem_trace res powerUpTimeoutSecs w
  rw [emitted_of_trace_eq h]
  refine ⟨h, ?_, ?_, ?_⟩
  · cases res <;> simp
  · cases res <;> simp
  · cases res <;> simp

/-- C2. `initWncModem` returns exactly what the responsiveness check reported. When the
check reported success, what follows the check (the tenth operation) is the wake-up toggle
delay 20 ms, wake-up := 0, delay 2000 ms, wake-up := 1, delay 20 ms, contiguous and in this
order, between the two debug messages; when it reported failure, nothing follows the
check. -/
theorem initWncModem_result_and_toggle (res : Bool) (powerUpTimeoutSecs : Nat) (w : World) :
    (initWncModem res powerUpTimeoutSecs w).1 = res ∧
    (emitted w (initWncModem res powerUpTimeoutSecs w).2).get? 9
      = some (Effect.waitForPowerOnModemToRespond powerUpTimeoutSecs) ∧
    (emitted w (initWncModem true powerUpTimeoutSecs w).2).drop 10 =
      [Effect.dbgPuts "\r\nToggling Wakeup...",
       Effect.waitMs 20,
       Effect.pinWrite Pin.mdm_wakeup_in 0,
       Effect.waitMs 2000,
       Effect.pinWrite Pin.mdm_wakeup_in 1,
       Effect.waitMs 20,
       Effect.dbgPuts "Toggling complete."] ∧
    (emitted w (initWncModem false powerUpTimeoutSecs w).2).drop 10 = [] := by
  refine ⟨?_, ?_, ?_, ?_⟩
  · cases res <;> rfl
  · rw [emitted_of_trace_eq (initWncModem_trace res powerUpTimeoutSecs w)]
    cases res <;> simp
  · rw [emitted_of_trace_eq (initWncModem_trace true powerUpTimeoutSecs w)]
    simp
  · rw [emitted_of_trace_eq (initWncModem_trace false powerUpTimeoutSecs w)]
    simp

/-- C10. Whatever the six lines held before, whatever the timeout and whatever the
responsiveness check reports, when `initWncModem` returns the lines hold reset = 0,
level-translator enable = 1, UART boot-mode-select = 1, power-on = 0, wake-up = 1 and
CTS = 0; and every value `initWncModem` writes to the reset line is 0. -/
theorem initWncModem_final_pins (res : Bool) (powerUpTimeoutSecs : Nat) (w : World) :
    (initWncModem res powerUpTimeoutSecs w).2.pins =
      { mdm_reset := 0, shield_3v3_1v8_sig_trans_ena := 1, mdm_uart2_rx_boot_mode_sel := 1,
        mdm_power_on := 0, mdm_wakeup_in := 1, mdm_uart1_cts := 0 } ∧
    (∀ v, Effect.pinWrite Pin.mdm_reset v ∈ emitted w (initWncModem res powerUpTimeoutSecs w).2
      → v = 0) := by
  constructor
  · cases res <;>
      simp [initWncModem, writePin, waitMs, wncBaud, dbgPuts, waitForPowerOnModemToRespond,
        World.log, WncGpioPinListK64F.set]
  · rw [emitted_of_trace_eq (initWncModem_trace res powerUpTimeoutSecs w)]
    cases res <;> simp

/-- C4. With a NULL console pointer `enterWncTerminalMode` returns false and leaves the
world exactly as it was: nothing is recorded (no command exchange, no UART operation), no
poll is consumed and no line changes, whatever `echoOn` and the command outcomes are. -/
theorem enterWncTerminalMode_null (probe flush final : AtCmdErr_e) (fuel : Nat)
    (echoOn : Bool) (w : World) :
    enterWncTerminalMode probe flush final fuel UartPtr.NULL echoOn w = (some false, w) := by
  simp [enterWncTerminalMode]

/-- C5. With a non-NULL console, if the initial "AT" probe times out then
`enterWncTerminalMode` returns false (for every fuel, so without entering the loop), the
only operation it performed is that one `sendWncCmd("AT", 500)`, and no console or modem
poll was consumed. -/
theorem enterWncTerminalMode_probe_timeout (flush final : AtCmdErr_e) (fuel : Nat)
    (pUart : UartPtr) (echoOn : Bool) (w : World) (hU : pUart ≠ UartPtr.NULL) :
    (enterWncTerminalMode AtCmdErr_e.WNC_AT_CMD_TIMEOUT flush final fuel pUart echoOn w).1
      = some false ∧
    (enterWncTerminalMode AtCmdErr_e.WNC_AT_CMD_TIMEOUT flush final fuel pUart echoOn w).2
      = { w with trace := w.trace ++ [Effect.sendWncCmd "AT" 500] } := by
  simp [enterWncTerminalMode, hU, sendWncCmd, World.log]

theorem enterWncTerminalMode_probe_timeout_witness :
    (enterWncTerminalMode AtCmdErr_e.WNC_AT_CMD_TIMEOUT AtCmdErr_e.WNC_AT_CMD_OK
        AtCmdErr_e.WNC_AT_CMD_OK 5 UartPtr.console true
        ⟨⟨0, 0, 0, 0, 0, 0⟩, [some 65, some 17], [some 79], []⟩).1 = some false ∧
    (enterWncTerminalMode AtCmdErr_e.WNC_AT_CMD_TIMEOUT AtCmdErr_e.WNC_AT_CMD_OK
        AtCmdErr_e.WNC_AT_CMD_OK 5 UartPtr.console true
        ⟨⟨0, 0, 0, 0, 0, 0⟩, [some 65, some 17], [some 79], []⟩).2
      = { (⟨⟨0, 0, 0, 0, 0, 0⟩, [some 65, some 17], [some 79], []⟩ : World) with
          trace := [] ++ [Effect.sendWncCmd "AT" 500] } :=
  enterWncTerminalMode_probe_timeout AtCmdErr_e.WNC_AT_CMD_OK AtCmdErr_e.WNC_AT_CMD_OK 5
    UartPtr.console true ⟨⟨0, 0, 0, 0, 0, 0⟩, [some 65, some 17], [some 79], []⟩ (by decide)

/-- C9. `startTimerA` and `stopTimerA` change only counter A, `startTimerB` and
`stopTimerB` change only counter B, and the three read accessors change nothing; hence the
read values of the other counter and of the log counter are the same before and after, and
after any sequence of timer calls the log counter is still exactly as the constructor
left it. -/
theorem timers_independent {T : Type} (api : TimerApi T) (now : Nat) (c : Timers T) :
    ((startTimerA api now c).m_timerB = c.m_timerB ∧
      (startTimerA api now c).m_logTimer = c.m_logTimer) ∧
    ((stopTimerA api now c).m_timerB = c.m_timerB ∧
      (stopTimerA api now c).m_logTimer = c.m_logTimer) ∧
    ((startTimerB api now c).m_timerA = c.m_timerA ∧
      (startTimerB api now c).m_logTimer = c.m_logTimer) ∧
    ((stopTimerB api now c).m_timerA = c.m_timerA ∧
      (stopTimerB api now c).m_logTimer = c.m_logTimer) ∧
    ((getTimerTicksA_mS api now c).2 = c ∧ (getTimerTicksB_mS api now c).2 = c ∧
      (getLogTimerTicks api now c).2 = c) ∧
    (∀ (call : TimerCall) (later : Nat), call ≠ TimerCall.startTimerB →
      call ≠ TimerCall.stopTimerB →
      (getTimerTicksB_mS api later (call.run api now c)).1
        = (getTimerTicksB_mS api later c).1) ∧
    (∀ (call : TimerCall) (later : Nat), call ≠ TimerCall.startTimerA →
      call ≠ TimerCall.stopTimerA →
      (getTimerTicksA_mS api later (call.run api now c)).1
        = (getTimerTicksA_mS api later c).1) ∧
    (∀ (call : TimerCall) (later : Nat),
      (getLogTimerTicks api later (call.run api now c)).1
        = (getLogTimerTicks api later c).1) ∧
    (∀ (calls : List (Nat × TimerCall)),
      (runCalls api (construct api now c) calls).m_logTimer = api.start now c.m_logTimer) := by
  refine ⟨⟨rfl, rfl⟩, ⟨rfl, rfl⟩, ⟨rfl, rfl⟩, ⟨rfl, rfl⟩, ⟨rfl, rfl, rfl⟩, ?_, ?_, ?_, ?_⟩
  · intro call later h1 h2
    cases call <;> first | rfl | contradiction
  · intro call later h1 h2
    cases call <;> first | rfl | contradiction
  · intro call later
    cases call <;> rfl
  · intro calls
    have key : ∀ (l : List (Nat × TimerCall)) (d : Timers T),
        (runCalls api d l).m_logTimer = d.m_logTimer := by
      intro l
      induction l with
      | nil => intro d; rfl
      | cons x rest ih =>
        intro d
        obtain ⟨t, call⟩ := x
        rw [runCalls, ih]
        cases call <;> rfl
    rw [key]
    rfl

/-- C3 (as amended). For a console schedule `pre ++ [0x11] ++ post` with no exit byte in
`pre`, a non-NULL console and an initial probe that did not time out: after `pre.length`
passes `enterWncTerminalMode` is still in its loop; in the next pass it reads 0x11 and then
performs exactly the exit banner, `sendWncCmd("AT", 300)` and `sendWncCmd("AT", 500)`, in
this order, and returns; the value returned is true if and only if the outcome of the
second call is `WNC_AT_CMD_OK`, whatever the outcome of the first call. -/
theorem enterWncTerminalMode_exit (probe flush final : AtCmdErr_e) (pUart : UartPtr)
    (echoOn : Bool) (pre post : List (Option Nat)) (k : Nat) (w : World)
    (hU : pUart ≠ UartPtr.NULL) (hP : probe ≠ AtCmdErr_e.WNC_AT_CMD_TIMEOUT)
    (hpre : some 0x11 ∉ pre) (hin : w.conIn = pre ++ some 0x11 :: post) :
    (enterWncTerminalMode probe flush final pre.length pUart echoOn w).1 = none ∧
    (enterWncTerminalMode probe flush final (pre.length + 1 + k) pUart echoOn w).2.trace =
      (enterWncTerminalMode probe flush final pre.length pUart echoOn w).2.trace ++
        [Effect.conGetc 0x11,
         Effect.conPuts "\r\nExiting WNC Terminal Mode!\r\n",
         Effect.sendWncCmd "AT" 300,
         Effect.sendWncCmd "AT" 500] ∧
    (enterWncTerminalMode probe flush final (pre.length + 1 + k) pUart echoOn w).1
      = some (decide (final = AtCmdErr_e.WNC_AT_CMD_OK)) ∧
    ((enterWncTerminalMode probe flush final (pre.length + 1 + k) pUart echoOn w).1 = some true
      ↔ final = AtCmdErr_e.WNC_AT_CMD_OK) ∧
    cmdCalls (emitted w
        (enterWncTerminalMode probe flush final (pre.length + 1 + k) pUart echoOn w).2)
      = [("AT", 500), ("AT", 300), ("AT", 500)] := by
  have hres : (enterWncTerminalMode probe flush final (pre.length + 1 + k) pUart echoOn w).1
      = some (decide (final = AtCmdErr_e.WNC_AT_CMD_OK)) := by
    rw [enterWncTerminalMode_eq_loop _ _ _ _ _ _ _ hU hP, terminalLoop_result]
    simp only [hin, take_through_exit]
    simp
  refine ⟨?_, ?_, hres, ?_, ?_⟩
  · rw [enterWncTerminalMode_eq_loop _ _ _ _ _ _ _ hU hP, terminalLoop_result]
    simp only [hin, List.take_left]
    simp [hpre]
  · rw [enterWncTerminalMode_eq_loop _ _ _ _ _ _ _ hU hP,
      enterWncTerminalMode_eq_loop _ _ _ _ _ _ _ hU hP, terminalLoop_trace, terminalLoop_trace]
    simp only [hin]
    rw [loopEvents_through_exit _ _ _ _ _ hpre]
    simp [exitEvents, List.append_assoc]
  · rw [hres]
    simp
  · have ht : (enterWncTerminalMode probe flush final (pre.length + 1 + k) pUart echoOn w).2.trace
        = w.trace ++ ([Effect.sendWncCmd "AT" 500,
            Effect.conPuts "\r\nEntering WNC Terminal Mode - press <CTRL>-Q to exit!\r\n"]
          ++ loopEvents echoOn (pre.length + 1 + k) w.conIn w.wncIn) := by
      rw [enterWncTerminalMode_eq_loop _ _ _ _ _ _ _ hU hP, terminalLoop_trace]
      simp [List.append_assoc]
    rw [emitted_of_trace_eq ht, cmdCalls_append, cmdCalls_loopEvents, hin, take_through_exit]
    simp [cmdCalls]

theorem enterWncTerminalMode_exit_witness :
    (enterWncTerminalMode AtCmdErr_e.WNC_AT_CMD_OK AtCmdErr_e.WNC_AT_CMD_TIMEOUT
        AtCmdErr_e.WNC_AT_CMD_OK [some 65, none].length UartPtr.console true
        ⟨⟨0, 0, 0, 0, 0, 0⟩, [some 65, none, some 0x11, some 66], [some 79], []⟩).1 = none ∧
    (enterWncTerminalMode AtCmdErr_e.WNC_AT_CMD_OK AtCmdErr_e.WNC_AT_CMD_TIMEOUT
        AtCmdErr_e.WNC_AT_CMD_OK ([some 65, none].length + 1 + 3) UartPtr.console true
        ⟨⟨0, 0, 0, 0, 0, 0⟩, [some 65, none, some 0x11, some 66], [some 79], []⟩).2.trace =
      (enterWncTerminalMode AtCmdErr_e.WNC_AT_CMD_OK AtCmdErr_e.WNC_AT_CMD_TIMEOUT
        AtCmdErr_e.WNC_AT_CMD_OK [some 65, none].length UartPtr.console true
        ⟨⟨0, 0, 0, 0, 0, 0⟩, [some 65, none, some 0x11, some 66], [some 79], []⟩).2.trace ++
        [Effect.conGetc 0x11,
         Effect.conPuts "\r\nExiting WNC Terminal Mode!\r\n",
         Effect.sendWncCmd "AT" 300,
         Effect.sendWncCmd "AT" 500] ∧
    (enterWncTerminalMode AtCmdErr_e.WNC_AT_CMD_OK AtCmdErr_e.WNC_AT_CMD_TIMEOUT
        AtCmdErr_e.WNC_AT_CMD_OK ([some 65, none].length + 1 + 3) UartPtr.console true
        ⟨⟨0, 0, 0, 0, 0, 0⟩, [some 65, none, some 0x11, some 66], [some 79], []⟩).1
      = some (decide (AtCmdErr_e.WNC_AT_CMD_OK = AtCmdErr_e.WNC_AT_CMD_OK)) ∧
    ((enterWncTerminalMode AtCmdErr_e.WNC_AT_CMD_OK AtCmdErr_e.WNC_AT_CMD_TIMEOUT
        AtCmdErr_e.WNC_AT_CMD_OK ([some 65, none].length + 1 + 3) UartPtr.console true
        ⟨⟨0, 0, 0, 0, 0, 0⟩, [some 65, none, some 0x11, some 66], [some 79], []⟩).1 = some true
      ↔ AtCmdErr_e.WNC_AT_CMD_OK = AtCmdErr_e.WNC_AT_CMD_OK) ∧
    cmdCalls (emitted ⟨⟨0, 0, 0, 0, 0, 0⟩, [some 65, none, some 0x11, some 66], [some 79], []⟩
        (enterWncTerminalMode AtCmdErr_e.WNC_AT_CMD_OK AtCmdErr_e.WNC_AT_CMD_TIMEOUT
          AtCmdErr_e.WNC_AT_CMD_OK ([some 65, none].length + 1 + 3) UartPtr.console true
          ⟨⟨0, 0, 0, 0, 0, 0⟩, [some 65, none, some 0x11, some 66], [some 79], []⟩).2)
      = [("AT", 500), ("AT", 300), ("AT", 500)] :=
  enterWncTerminalMode_exit AtCmdErr_e.WNC_AT_CMD_OK AtCmdErr_e.WNC_AT_CMD_TIMEOUT
    AtCmdErr_e.WNC_AT_CMD_OK UartPtr.console true [some 65, none] [some 66] 3
    ⟨⟨0, 0, 0, 0, 0, 0⟩, [some 65, none, some 0x11, some 66], [some 79], []⟩
    (by decide) (by decide) (by decide) rfl

/-- C3, as stated, fails: with the console delivering 0x11 at once and the second exit call
ending in an outcome that is neither OK nor TIMEOUT, the call is not timed out and yet
`enterWncTerminalMode` returns false. -/
theorem enterWncTerminalMode_exit_not_timeout_counterexample :
    ¬ ((enterWncTerminalMode AtCmdErr_e.WNC_AT_CMD_OK AtCmdErr_e.WNC_AT_CMD_OK
          (AtCmdErr_e.other 0) 1 UartPtr.console false
          ⟨⟨0, 0, 0, 0, 0, 0⟩, [some 0x11], [], []⟩).1 = some true
        ↔ AtCmdErr_e.other 0 ≠ AtCmdErr_e.WNC_AT_CMD_TIMEOUT) := by
  decide

/-- C6. Let `pre` be a console schedule without the exit byte. If the console delivers
`pre`, then after any number `n` of passes of the loop the bytes read from the console, the
bytes written to the modem and, when `echoOn`, the bytes echoed to the console are each
exactly the bytes of the first `n` polls, in order, and nothing is echoed when `echoOn` is
false. Nothing else is written to the console on behalf of the console bytes: the byte
writes that are not echoes are exactly the bytes read from the modem, the number of byte
writes is the number of echoes plus the number of modem bytes read, and when the modem
delivers nothing the whole byte output of the console is the console bytes when `echoOn` and
empty otherwise. If the console delivers `pre`, then 0x11, then anything, the same holds
for the run through the exit pass with exactly the bytes of `pre`: the exit byte is read
but neither forwarded nor echoed. -/
theorem terminalLoop_forwards_console (echoOn : Bool) (flush final : AtCmdErr_e) (n k j : Nat)
    (w : World) (pre post : List (Option Nat)) (hpre : some 0x11 ∉ pre) :
    (conReads (loopOps echoOn flush final n
          { w with conIn := pre })
        = delivered (pre.take n) ∧
      wncWrites (loopOps echoOn flush final n
          { w with conIn := pre })
        = delivered (pre.take n) ∧
      echoWrites (loopOps echoOn flush final n
          { w with conIn := pre })
        = (if echoOn = true then delivered (pre.take n) else []) ∧
      passedWrites (loopOps echoOn flush final n
          { w with conIn := pre })
        = wncReads (loopOps echoOn flush final n
          { w with conIn := pre }) ∧
      (conWrites (loopOps echoOn flush final n
          { w with conIn := pre })).length
        = (echoWrites (loopOps echoOn flush final n
          { w with conIn := pre })).length
          + (wncReads (loopOps echoOn flush final n
          { w with conIn := pre })).length ∧
      conWrites (loopOps echoOn flush final n
          { w with conIn := pre, wncIn := List.replicate j none })
        = (if echoOn = true then delivered (pre.take n) else [])) ∧
    (conReads (loopOps echoOn flush final (pre.length + 1 + k)
          { w with conIn := pre ++ some 0x11 :: post })
        = delivered pre ++ [0x11] ∧
      wncWrites (loopOps echoOn flush final (pre.length + 1 + k)
          { w with conIn := pre ++ some 0x11 :: post })
        = delivered pre ∧
      echoWrites (loopOps echoOn flush final (pre.length + 1 + k)
          { w with conIn := pre ++ some 0x11 :: post })
        = (if echoOn = true then delivered pre else []) ∧
      passedWrites (loopOps echoOn flush final (pre.length + 1 + k)
          { w with conIn := pre ++ some 0x11 :: post })
        = wncReads (loopOps echoOn flush final (pre.length + 1 + k)
          { w with conIn := pre ++ some 0x11 :: post }) ∧
      (conWrites (loopOps echoOn flush final (pre.length + 1 + k)
          { w with conIn := pre ++ some 0x11 :: post })).length
        = (echoWrites (loopOps echoOn flush final (pre.length + 1 + k)
          { w with conIn := pre ++ some 0x11 :: post })).length
          + (wncReads (loopOps echoOn flush final (pre.length + 1 + k)
          { w with conIn := pre ++ some 0x11 :: post })).length ∧
      conWrites (loopOps echoOn flush final (pre.length + 1 + k)
          { w with
            conIn := pre ++ some 0x11 :: post,
            wncIn := List.replicate j none })
        = (if echoOn = true then delivered pre else [])) := by
  have silent : ∀ x ∈ List.replicate j (none : Option Nat), x = none :=
    fun x hx => (List.mem_replicate.mp hx).2
  constructor
  · have hno : some 0x11 ∉ pre.take n := fun h => hpre (List.mem_of_mem_take h)
    unfold loopOps
    rw [emitted_of_trace_eq (terminalLoop_trace echoOn flush final n _),
      emitted_of_trace_eq (terminalLoop_trace echoOn flush final n _)]
    refine ⟨?_, ?_, ?_, passedWrites_loopEvents _ _ _ _,
      conWrites_length_loopEvents _ _ _ _, ?_⟩
    · rw [conReads_loopEvents]
      simp only [beforeExit_of_no_exit _ hno]
      simp [hno]
    · rw [wncWrites_loopEvents]
      simp only [beforeExit_of_no_exit _ hno]
    · rw [echoWrites_loopEvents]
      simp only [beforeExit_of_no_exit _ hno]
    · rw [conWrites_loopEvents_of_silent _ _ _ _ silent]
      simp only [beforeExit_of_no_exit _ hno]
  · unfold loopOps
    rw [emitted_of_trace_eq (terminalLoop_trace echoOn flush final _ _),
      emitted_of_trace_eq (terminalLoop_trace echoOn flush final _ _)]
    refine ⟨?_, ?_, ?_, passedWrites_loopEvents _ _ _ _,
      conWrites_length_loopEvents _ _ _ _, ?_⟩
    · rw [conReads_loopEvents]
      simp only [take_through_exit, beforeExit_through_exit _ _ hpre]
      simp
    · rw [wncWrites_loopEvents]
      simp only [take_through_exit, beforeExit_through_exit _ _ hpre]
    · rw [echoWrites_loopEvents]
      simp only [take_through_exit, beforeExit_through_exit _ _ hpre]
    · rw [conWrites_loopEvents_of_silent _ _ _ _ silent]
      simp only [take_through_exit, beforeExit_through_exit _ _ hpre]

theorem terminalLoop_forwards_console_witness :
    (conReads (loopOps true AtCmdErr_e.WNC_AT_CMD_OK AtCmdErr_e.WNC_AT_CMD_OK 5
          { (⟨⟨0, 0, 0, 0, 0, 0⟩, [], [some 79], []⟩ : World) with
            conIn := [some 65, none, some 84] })
        = delivered ([some 65, none, some 84].take 5) ∧
      wncWrites (loopOps true AtCmdErr_e.WNC_AT_CMD_OK AtCmdErr_e.WNC_AT_CMD_OK 5
          { (⟨⟨0, 0, 0, 0, 0, 0⟩, [], [some 79], []⟩ : World) with
            conIn := [some 65, none, some 84] })
        = delivered ([some 65, none, some 84].take 5) ∧
      echoWrites (loopOps true AtCmdErr_e.WNC_AT_CMD_OK AtCmdErr_e.WNC_AT_CMD_OK 5
          { (⟨⟨0, 0, 0, 0, 0, 0⟩, [], [some 79], []⟩ : World) with
            conIn := [some 65, none, some 84] })
        = (if true = true then delivered ([some 65, none, some 84].take 5) else []) ∧
      passedWrites (loopOps true AtCmdErr_e.WNC_AT_CMD_OK AtCmdErr_e.WNC_AT_CMD_OK 5
          { (⟨⟨0, 0, 0, 0, 0, 0⟩, [], [some 79], []⟩ : World) with
            conIn := [some 65, none, some 84] })
        = wncReads (loopOps true AtCmdErr_e.WNC_AT_CMD_OK AtCmdErr_e.WNC_AT_CMD_OK 5
          { (⟨⟨0, 0, 0, 0, 0, 0⟩, [], [some 79], []⟩ : World) with
            conIn := [some 65, none, some 84] }) ∧
      (conWrites (loopOps true AtCmdErr_e.WNC_AT_CMD_OK AtCmdErr_e.WNC_AT_CMD_OK 5
          { (⟨⟨0, 0, 0, 0, 0, 0⟩, [], [some 79], []⟩ : World) with
            conIn := [some 65, none, some 84] })).length
        = (echoWrites (loopOps true AtCmdErr_e.WNC_AT_CMD_OK AtCmdErr_e.WNC_AT_CMD_OK 5
          { (⟨⟨0, 0, 0, 0, 0, 0⟩, [], [some 79], []⟩ : World) with
            conIn := [some 65, none, some 84] })).length
          + (wncReads (loopOps true AtCmdErr_e.WNC_AT_CMD_OK AtCmdErr_e.WNC_AT_CMD_OK 5
          { (⟨⟨0, 0, 0, 0, 0, 0⟩, [], [some 79], []⟩ : World) with
            conIn := [some 65, none, some 84] })).length ∧
      conWrites (loopOps true AtCmdErr_e.WNC_AT_CMD_OK AtCmdErr_e.WNC_AT_CMD_OK 5
          { (⟨⟨0, 0, 0, 0, 0, 0⟩, [], [some 79], []⟩ : World) with
            conIn := [some 65, none, some 84],
            wncIn := List.replicate 4 none })
        = (if true = true then delivered ([some 65, none, some 84].take 5) else [])) ∧
    (conReads (loopOps true AtCmdErr_e.WNC_AT_CMD_OK AtCmdErr_e.WNC_AT_CMD_OK ([some 65, none, some 84].length + 1 + 2)
          { (⟨⟨0, 0, 0, 0, 0, 0⟩, [], [some 79], []⟩ : World) with
            conIn := [some 65, none, some 84] ++ some 0x11 :: [some 66] })
        = delivered [some 65, none, some 84] ++ [0x11] ∧
      wncWrites (loopOps true AtCmdErr_e.WNC_AT_CMD_OK AtCmdErr_e.WNC_AT_CMD_OK ([some 65, none, some 84].length + 1 + 2)
          { (⟨⟨0, 0, 0, 0, 0, 0⟩, [], [some 79], []⟩ : World) with
            conIn := [some 65, none, some 84] ++ some 0x11 :: [some 66] })
        = delivered [some 65, none, some 84] ∧
      echoWrites (loopOps true AtCmdErr_e.WNC_AT_CMD_OK AtCmdErr_e.WNC_AT_CMD_OK ([some 65, none, some 84].length + 1 + 2)
          { (⟨⟨0, 0, 0, 0, 0, 0⟩, [], [some 79], []⟩ : World) with
            conIn := [some 65, none, some 84] ++ some 0x11 :: [some 66] })
        = (if true = true then delivered [some 65, none, some 84] else []) ∧
      passedWrites (loopOps true AtCmdErr_e.WNC_AT_CMD_OK AtCmdErr_e.WNC_AT_CMD_OK ([some 65, none, some 84].length + 1 + 2)
          { (⟨⟨0, 0, 0, 0, 0, 0⟩, [], [some 79], []⟩ : World) with
            conIn := [some 65, none, some 84] ++ some 0x11 :: [some 66] })
        = wncReads (loopOps true AtCmdErr_e.WNC_AT_CMD_OK AtCmdErr_e.WNC_AT_CMD_OK ([some 65, none, some 84].length + 1 + 2)
          { (⟨⟨0, 0, 0, 0, 0, 0⟩, [], [some 79], []⟩ : World) with
            conIn := [some 65, none, some 84] ++ some 0x11 :: [some 66] }) ∧
      (conWrites (loopOps true AtCmdErr_e.WNC_AT_CMD_OK AtCmdErr_e.WNC_AT_CMD_OK ([some 65, none, some 84].length + 1 + 2)
          { (⟨⟨0, 0, 0, 0, 0, 0⟩, [], [some 79], []⟩ : World) with
            conIn := [some 65, none, some 84] ++ some 0x11 :: [some 66] })).length
        = (echoWrites (loopOps true AtCmdErr_e.WNC_AT_CMD_OK AtCmdErr_e.WNC_AT_CMD_OK ([some 65, none, some 84].length + 1 + 2)
          { (⟨⟨0, 0, 0, 0, 0, 0⟩, [], [some 79], []⟩ : World) with
            conIn := [some 65, none, some 84] ++ some 0x11 :: [some 66] })).length
          + (wncReads (loopOps true AtCmdErr_e.WNC_AT_CMD_OK AtCmdErr_e.WNC_AT_CMD_OK ([some 65, none, some 84].length + 1 + 2)
          { (⟨⟨0, 0, 0, 0, 0, 0⟩, [], [some 79], []⟩ : World) with
            conIn := [some 65, none, some 84] ++ some 0x11 :: [some 66] })).length ∧
      conWrites (loopOps true AtCmdErr_e.WNC_AT_CMD_OK AtCmdErr_e.WNC_AT_CMD_OK ([some 65, none, some 84].length + 1 + 2)
          { (⟨⟨0, 0, 0, 0, 0, 0⟩, [], [some 79], []⟩ : World) with
            conIn := [some 65, none, some 84] ++ some 0x11 :: [some 66],
            wncIn := List.replicate 4 none })
        = (if true = true then delivered [some 65, none, some 84] else [])) :=
  terminalLoop_forwards_console true AtCmdErr_e.WNC_AT_CMD_OK AtCmdErr_e.WNC_AT_CMD_OK 5 2 4
    ⟨⟨0, 0, 0, 0, 0, 0⟩, [], [some 79], []⟩
    [some 65, none, some 84] [some 66] (by decide)

/-- C7. For every run of the loop, the bytes written to the console with the banners and
the echoes left out are exactly the bytes read from the modem, in the order they were
read; every console byte write is either an echo or such a modem byte; the bytes read from
the modem are the bytes of the first `j` modem polls, where `j` is the number of passes
that ran to their end (`j = n` when the exit byte is not met). In one pass at most one
modem byte is read; in a pass that does not read the exit byte the modem poll is handled
after the console operations of that pass, and in the same way whatever the console poll
found; the pass that reads the exit byte returns before the modem is polled. -/
theorem terminalLoop_passes_modem (echoOn : Bool) (flush final : AtCmdErr_e) (n : Nat)
    (w : World) :
    passedWrites (loopOps echoOn flush final n w) = wncReads (loopOps echoOn flush final n w) ∧
    (conWrites (loopOps echoOn flush final n w)).length
      = (echoWrites (loopOps echoOn flush final n w)).length
        + (wncReads (loopOps echoOn flush final n w)).length ∧
    wncReads (loopOps echoOn flush final n w)
      = delivered (w.wncIn.take (fullPasses n w.conIn)) ∧
    fullPasses n w.conIn ≤ n ∧
    (some 0x11 ∉ w.conIn.take n → fullPasses n w.conIn = n) ∧
    (wncReads (passOps echoOn flush final w)).length ≤ 1 ∧
    (w.conIn.head? ≠ some (some 0x11) →
      passOps echoOn flush final w
        = conEvents echoOn w.conIn.head?.join ++ wncEvents w.wncIn.head?.join) ∧
    (w.conIn.head? = some (some 0x11) →
      wncReads (passOps echoOn flush final w) = [] ∧
      (terminalIteration echoOn flush final w).2.wncIn = w.wncIn) := by
  have hops : loopOps echoOn flush final n w = loopEvents echoOn n w.conIn w.wncIn :=
    emitted_of_trace_eq (terminalLoop_trace echoOn flush final n w)
  have hpass : passOps echoOn flush final w =
      if w.conIn.head? = some (some 0x11) then exitEvents
      else conEvents echoOn w.conIn.head?.join ++ wncEvents w.wncIn.head?.join := by
    unfold passOps
    apply emitted_of_trace_eq
    rw [terminalIteration_eq]
    split <;> rfl
  have e1 : ∀ m : Option Nat, wncReads (wncEvents m) = m.toList := by
    intro m; cases m <;> simp [wncEvents, wncReads]
  have e2 : ∀ x : Option Nat, wncReads (conEvents echoOn x) = [] := by
    intro x; cases x <;> cases echoOn <;> simp [conEvents, wncReads]
  rw [hops]
  refine ⟨passedWrites_loopEvents _ _ _ _, conWrites_length_loopEvents _ _ _ _,
    wncReads_loopEvents _ _ _ _, fullPasses_le _ _, fullPasses_of_no_exit _ _, ?_, ?_, ?_⟩
  · rw [hpass]
    split
    · simp [exitEvents, wncReads]
    · rw [wncReads_append, e1, e2]
      cases w.wncIn.head?.join <;> simp
  · intro h
    rw [hpass, if_neg h]
  · intro h
    rw [hpass, if_pos h, terminalIteration_eq, if_pos h]
    exact ⟨by simp [exitEvents, wncReads], rfl⟩

/-- C8. With a non-NULL console, an initial probe that did not time out and a console
schedule in which the exit byte never occurs (the empty schedule included),
`enterWncTerminalMode` has not returned after `n` passes of its loop, for every `n`. A
pass returns only when the byte it read from the console is 0x11. -/
theorem enterWncTerminalMode_no_other_exit (probe flush final : AtCmdErr_e) (n : Nat)
    (pUart : UartPtr) (echoOn : Bool) (w : World) (hU : pUart ≠ UartPtr.NULL)
    (hP : probe ≠ AtCmdErr_e.WNC_AT_CMD_TIMEOUT) (h : some 0x11 ∉ w.conIn) :
    (enterWncTerminalMode probe flush final n pUart echoOn w).1 = none ∧
    (∀ (w0 : World) (b : Bool), (terminalIteration echoOn flush final w0).1 = some b →
      w0.conIn.head? = some (some 0x11) ∧
      conReads (passOps echoOn flush final w0) = [0x11]) := by
  constructor
  · rw [enterWncTerminalMode_eq_loop _ _ _ _ _ _ _ hU hP, terminalLoop_result]
    have hno : some 0x11 ∉ w.conIn.take n := fun h' => h (List.mem_of_mem_take h')
    simp [hno]
  · intro w0 b hb
    rw [terminalIteration_eq] at hb
    by_cases h0 : w0.conIn.head? = some (some 0x11)
    · refine ⟨h0, ?_⟩
      have : passOps echoOn flush final w0 = exitEvents := by
        unfold passOps
        apply emitted_of_trace_eq
        rw [terminalIteration_eq, if_pos h0]
      rw [this]
      simp [exitEvents, conReads]
    · rw [if_neg h0] at hb
      simp at hb

theorem enterWncTerminalMode_no_other_exit_witness :
    (enterWncTerminalMode AtCmdErr_e.WNC_AT_CMD_OK AtCmdErr_e.WNC_AT_CMD_OK
        AtCmdErr_e.WNC_AT_CMD_OK 40 UartPtr.console true
        ⟨⟨0, 0, 0, 0, 0, 0⟩, [some 65, none, some 84], [some 79, some 75], []⟩).1 = none ∧
    (∀ (w0 : World) (b : Bool),
      (terminalIteration true AtCmdErr_e.WNC_AT_CMD_OK AtCmdErr_e.WNC_AT_CMD_OK w0).1 = some b →
      w0.conIn.head? = some (some 0x11) ∧
      conReads (passOps true AtCmdErr_e.WNC_AT_CMD_OK AtCmdErr_e.WNC_AT_CMD_OK w0) = [0x11]) :=
  enterWncTerminalMode_no_other_exit AtCmdErr_e.WNC_AT_CMD_OK AtCmdErr_e.WNC_AT_CMD_OK
    AtCmdErr_e.WNC_AT_CMD_OK 40 UartPtr.console true
    ⟨⟨0, 0, 0, 0, 0, 0⟩, [some 65, none, some 84], [some 79, some 75], []⟩
    (by decide) (by decide) (by decide)

end WncController_fk
